import Mathlib

set_option maxRecDepth 4000

/-!
Shallow embedding of the replication manager of Tendis
(`src/tendisplus/replication/repl_manager.cpp`) and proofs about it.

Conventions of the embedding:
* machine integers (`uint32_t`, `uint64_t`) are `Nat` with explicit sentinels;
* `SCLOCK::time_point` instants are `Nat` tick counts in milliseconds, with
  `time_point::max()` rendered by the constant `instantMax`;
* `std::map` fields are association lists in key order of insertion (order is
  irrelevant to every property proved here);
* external collaborators (segment manager, storage engine, network, worker
  pools) are oracles passed in environment records: a `Bool`/`Option` field per
  fallible call;
* `LOG(FATAL)` and a failed `INVARIANT(...)` abort the process; functions that
  can abort return `Option`, with `none` for the abort.
-/

namespace Tendisplus

/-- `std::numeric_limits<uint64_t>::max()`. -/
def UINT64_MAX : Nat := 2 ^ 64 - 1

/-- `std::numeric_limits<uint32_t>::max()`. -/
def UINT32_MAX : Nat := 2 ^ 32 - 1

/-- Modelled from the spec: `Transaction::TXNID_UNINITED`, the reserved
"unset" binlog-id sentinel (the Transaction header is not under src/). -/
def TXNID_UNINITED : Nat := UINT64_MAX

/-- Modelled from the spec: `Transaction::MIN_VALID_TXNID`, "the first legal
value" of a binlog id (the Transaction header is not under src/). -/
def MIN_VALID_TXNID : Nat := 1

/-- `SCLOCK::time_point::max()` as a tick count; every realizable instant is
strictly below it. -/
def instantMax : Nat := 2 ^ 63 - 1

/-- The four replication states of a store (spec section 3). -/
inductive ReplState
  | REPL_NONE
  | REPL_CONNECT
  | REPL_TRANSFER
  | REPL_CONNECTED
  deriving DecidableEq

/-- `KVStore::StoreMode`. -/
inductive StoreMode
  | READ_WRITE
  | REPLICATE_ONLY
  | STORE_NONE
  deriving DecidableEq

/-- The error codes of `Status` that the replication manager produces.
`ERR_OTHER` stands for any code produced by an external collaborator and
merely forwarded. -/
inductive ErrorCode
  | ERR_OK
  | ERR_NOTFOUND
  | ERR_TIMEOUT
  | ERR_MANUAL
  | ERR_BUSY
  | ERR_INTERNAL
  | ERR_EXHAUST
  | ERR_OTHER
  deriving DecidableEq

/-- `StoreMeta` (catalog-owned, cached in `_syncMeta`); field order follows the
constructor `StoreMeta(id, syncFromHost, syncFromPort, syncFromId, binlogId,
replState)` used at startup. -/
structure StoreMeta where
  id : Nat
  syncFromHost : String
  syncFromPort : Nat
  syncFromId : Nat
  binlogId : Nat
  replState : ReplState
  deriving DecidableEq

/-- `SPovStatus` (`_syncStatus[i]`, the slave point of view). -/
structure SPovStatus where
  isRunning : Bool
  sessionId : Nat
  nextSchedTime : Nat
  lastSyncTime : Nat
  deriving DecidableEq

/-- `MPovStatus` (`_pushStatus[i][clientId]`, one incremental-push
subscriber). -/
structure MPovStatus where
  isRunning : Bool
  dstStoreId : Nat
  binlogPos : Nat
  nextSchedTime : Nat
  clientId : Nat
  deriving DecidableEq

/-- Modelled from the spec: the `FullPushState` enum of repl_manager.h (not
under src/); the spec names the states RUNNING/SUCCESS/FAILED, the source
spells the success state `SUCESS`. -/
inductive FullPushState
  | RUNNING
  | SUCESS
  | FAILED
  deriving DecidableEq

/-- `MPovFullPushStatus` (`_fullPushStatus[i][nodeKey]`, one full-push
subscriber). -/
structure MPovFullPushStatus where
  state : FullPushState
  binlogPos : Nat
  startTime : Nat
  endTime : Nat
  deriving DecidableEq

/-- `RecycleBinlogStatus` (`_logRecycStatus[i]`); the archive file handle
`curFile` lives behind external calls and is not carried here. -/
structure RecycleBinlogStatus where
  isRunning : Bool
  nextSchedTime : Nat
  firstBinlogId : Nat
  lastFlushBinlogId : Nat
  fileSeq : Nat
  timestamp : Nat
  deriving DecidableEq

/-- The whole mutable state of `ReplManager`, together with the catalog it
persists `StoreMeta` into and the per-store modes it sets through
`setStoreMode` (both owned by external components but mutated only through
the manager in the modelled operations). -/
structure ReplManagerState where
  syncMeta : List StoreMeta
  syncStatus : List SPovStatus
  pushStatus : List (List (Nat × MPovStatus))
  fullPushStatus : List (List (String × MPovFullPushStatus))
  logRecycStatus : List RecycleBinlogStatus
  connectMasterTimeoutMs : Nat
  storeModes : List StoreMode
  catalog : List (Option StoreMeta)
  deriving DecidableEq

def dfltMeta : StoreMeta :=
  { id := 0, syncFromHost := "", syncFromPort := 0, syncFromId := 0,
    binlogId := 0, replState := ReplState.REPL_NONE }

def dfltSPov : SPovStatus :=
  { isRunning := false, sessionId := 0, nextSchedTime := 0, lastSyncTime := 0 }

def dfltRecycle : RecycleBinlogStatus :=
  { isRunning := false, nextSchedTime := 0, firstBinlogId := 0,
    lastFlushBinlogId := 0, fileSeq := 0, timestamp := 0 }

/-- Point update of the `i`-th element of a list (out-of-range is the
identity, matching vector indexing that is always in range in the source). -/
def updateNth {α : Type} : List α → Nat → (α → α) → List α
  | [], _, _ => []
  | a :: l, 0, f => f a :: l
  | a :: l, Nat.succ n, f => a :: updateNth l n f

theorem updateNth_length {α : Type} (l : List α) (i : Nat) (f : α → α) :
    (updateNth l i f).length = l.length := by
  induction l generalizing i with
  | nil => rfl
  | cons a l ih =>
    cases i with
    | zero => rfl
    | succ n => simp [updateNth, ih]

theorem updateNth_getD_ne {α : Type} (l : List α) (i j : Nat) (f : α → α)
    (d : α) (h : j ≠ i) : (updateNth l i f).getD j d = l.getD j d := by
  induction l generalizing i j with
  | nil => rfl
  | cons a l ih =>
    cases i with
    | zero =>
      cases j with
      | zero => exact absurd rfl h
      | succ m => simp [updateNth]
    | succ n =>
      cases j with
      | zero => simp [updateNth]
      | succ m =>
        simp only [updateNth, List.getD_cons_succ]
        exact ih n m (fun hc => h (by rw [hc]))

theorem updateNth_getD_eq {α : Type} (l : List α) (i : Nat) (f : α → α)
    (d : α) (h : i < l.length) :
    (updateNth l i f).getD i d = f (l.getD i d) := by
  induction l generalizing i with
  | nil => simp at h
  | cons a l ih =>
    cases i with
    | zero => rfl
    | succ n =>
      simp only [updateNth, List.getD_cons_succ]
      exact ih n (by simpa using h)

theorem updateNth_oob {α : Type} (l : List α) (i : Nat) (f : α → α)
    (h : l.length ≤ i) : updateNth l i f = l := by
  induction l generalizing i with
  | nil => rfl
  | cons a l ih =>
    cases i with
    | zero => simp at h
    | succ n => simp only [updateNth]; rw [ih n (by simpa using h)]

/-- Collect a list of `Option`s, failing when any element failed. -/
def optList {α : Type} : List (Option α) → Option (List α)
  | [] => some []
  | none :: _ => none
  | some a :: l =>
    match optList l with
    | none => none
    | some r => some (a :: r)

theorem optList_length {α : Type} :
    ∀ (l : List (Option α)) (r : List α), optList l = some r →
      r.length = l.length := by
  intro l
  induction l with
  | nil => intro r h; simp [optList] at h; simp [← h]
  | cons a l ih =>
    intro r h
    cases a with
    | none => simp [optList] at h
    | some x =>
      simp only [optList] at h
      cases hrec : optList l with
      | none => rw [hrec] at h; exact absurd h (by simp)
      | some r2 =>
        rw [hrec] at h
        simp only [Option.some.injEq] at h
        rw [← h]
        simp [ih r2 hrec]

theorem optList_getD {α : Type} :
    ∀ (l : List (Option α)) (r : List α) (i : Nat) (d : α),
      optList l = some r → i < l.length →
      l.getD i none = some (r.getD i d) := by
  intro l
  induction l with
  | nil => intro r i d _ hi; simp at hi
  | cons a l ih =>
    intro r i d h hi
    cases a with
    | none => simp [optList] at h
    | some x =>
      simp only [optList] at h
      cases hrec : optList l with
      | none => rw [hrec] at h; exact absurd h (by simp)
      | some r2 =>
        rw [hrec] at h
        simp only [Option.some.injEq] at h
        cases i with
        | zero => simp [← h]
        | succ n =>
          simp only [List.getD_cons_succ, ← h]
          exact ih r2 n d hrec (by simpa using hi)

theorem optList_eq_none {α : Type} :
    ∀ l : List (Option α), optList l = none → none ∈ l := by
  intro l
  induction l with
  | nil => intro h; simp [optList] at h
  | cons a l ih =>
    intro h
    cases a with
    | none => exact List.mem_cons_self _ _
    | some x =>
      simp only [optList] at h
      cases hrec : optList l with
      | none => exact List.mem_cons_of_mem _ (ih hrec)
      | some r => rw [hrec] at h; simp at h

theorem getD_range_map {α : Type} (N i : Nat) (f : Nat → α) (d : α) :
    ((List.range N).map f).getD i d = if i < N then f i else d := by
  by_cases h : i < N
  · rw [List.getD_eq_get?, List.get?_map, List.get?_range h]
    simp [h]
  · rw [List.getD_eq_get?, List.get?_map, List.get?_eq_none.2 (by simp; omega)]
    simp [h]

/-! ### `ReplManager::stopStore` (repl_manager.cpp lines 44-59)

Under the central mutex: disable the slave slot, the recycle slot and every
incremental-push slot of the store by moving their `nextSchedTime` to
`time_point::max()`, and clear `_fullPushStatus[storeId]`. -/

def stopStore (st : ReplManagerState) (storeId : Nat) :
    ReplManagerState × ErrorCode :=
  ({ st with
      syncStatus := updateNth st.syncStatus storeId
        (fun s => { s with nextSchedTime := instantMax }),
      logRecycStatus := updateNth st.logRecycStatus storeId
        (fun v => { v with nextSchedTime := instantMax }),
      pushStatus := updateNth st.pushStatus storeId
        (fun m => m.map (fun p => (p.1, { p.2 with nextSchedTime := instantMax }))),
      fullPushStatus := updateNth st.fullPushStatus storeId (fun _ => []) },
   ErrorCode.ERR_OK)

/-- C10: `stopStore(storeId)` only moves the slave, recycle and per-subscriber
push `nextSchedTime`s of that store to `instant::MAX` and empties
`fullPushStatus[storeId]`; it returns OK and leaves `syncMeta[storeId]`, the
store mode, the `pushStatus[storeId]` entries apart from their
`nextSchedTime`, every `isRunning` flag, `recycleStatus[storeId]` apart from
its `nextSchedTime`, the connect-master timeout, the catalog, and all state
of every other store unchanged. -/
theorem c10_stopStore_frame (st : ReplManagerState) (storeId : Nat)
    (h1 : storeId < st.syncStatus.length)
    (h2 : storeId < st.logRecycStatus.length)
    (h3 : storeId < st.pushStatus.length) :
    (stopStore st storeId).2 = ErrorCode.ERR_OK
    ∧ (stopStore st storeId).1.syncMeta = st.syncMeta
    ∧ (stopStore st storeId).1.storeModes = st.storeModes
    ∧ (stopStore st storeId).1.catalog = st.catalog
    ∧ (stopStore st storeId).1.connectMasterTimeoutMs = st.connectMasterTimeoutMs
    ∧ (stopStore st storeId).1.syncStatus.getD storeId dfltSPov
        = { st.syncStatus.getD storeId dfltSPov with nextSchedTime := instantMax }
    ∧ (stopStore st storeId).1.logRecycStatus.getD storeId dfltRecycle
        = { st.logRecycStatus.getD storeId dfltRecycle with nextSchedTime := instantMax }
    ∧ (stopStore st storeId).1.pushStatus.getD storeId []
        = (st.pushStatus.getD storeId []).map
            (fun p => (p.1, { p.2 with nextSchedTime := instantMax }))
    ∧ (stopStore st storeId).1.fullPushStatus.getD storeId [] = []
    ∧ (∀ j, j ≠ storeId →
        (stopStore st storeId).1.syncStatus.getD j dfltSPov
            = st.syncStatus.getD j dfltSPov
        ∧ (stopStore st storeId).1.logRecycStatus.getD j dfltRecycle
            = st.logRecycStatus.getD j dfltRecycle
        ∧ (stopStore st storeId).1.pushStatus.getD j []
            = st.pushStatus.getD j []
        ∧ (stopStore st storeId).1.fullPushStatus.getD j []
            = st.fullPushStatus.getD j []) := by
  refine ⟨rfl, rfl, rfl, rfl, rfl, ?_, ?_, ?_, ?_, ?_⟩
  · exact updateNth_getD_eq _ _ _ _ h1
  · exact updateNth_getD_eq _ _ _ _ h2
  · exact updateNth_getD_eq _ _ _ _ h3
  · by_cases h4 : storeId < st.fullPushStatus.length
    · exact updateNth_getD_eq _ _ _ _ h4
    · show (updateNth st.fullPushStatus storeId (fun _ => [])).getD storeId [] = []
      rw [updateNth_oob _ _ _ (by omega)]
      rw [List.getD_eq_get?, List.get?_eq_none.2 (by omega)]
      rfl
  · intro j hj
    exact ⟨updateNth_getD_ne _ _ _ _ _ hj, updateNth_getD_ne _ _ _ _ _ hj,
      updateNth_getD_ne _ _ _ _ _ hj, updateNth_getD_ne _ _ _ _ _ hj⟩

/-- A one-store state used to instantiate theorems with hypotheses. -/
def stW10 : ReplManagerState :=
  { syncMeta := [{ id := 0, syncFromHost := "h", syncFromPort := 1, syncFromId := 0,
                   binlogId := 7, replState := ReplState.REPL_CONNECTED }],
    syncStatus := [{ isRunning := true, sessionId := 3, nextSchedTime := 10,
                     lastSyncTime := 4 }],
    pushStatus := [[(2, { isRunning := false, dstStoreId := 0, binlogPos := 40,
                          nextSchedTime := 6, clientId := 2 })]],
    fullPushStatus := [[("n1:1:0", { state := FullPushState.RUNNING, binlogPos := 30,
                                     startTime := 1, endTime := 0 })]],
    logRecycStatus := [{ isRunning := false, nextSchedTime := 9, firstBinlogId := 12,
                         lastFlushBinlogId := 0, fileSeq := 2, timestamp := 5 }],
    connectMasterTimeoutMs := 1000,
    storeModes := [StoreMode.REPLICATE_ONLY],
    catalog := [none] }

/-- Witness for C10 at the concrete state `stW10`. -/
theorem c10_stopStore_frame_witness :
    (stopStore stW10 0).1.syncMeta = stW10.syncMeta
    ∧ (stopStore stW10 0).1.fullPushStatus.getD 0 [] = []
    ∧ ((stopStore stW10 0).1.syncStatus.getD 0 dfltSPov).isRunning
        = (stW10.syncStatus.getD 0 dfltSPov).isRunning := by
  have h := c10_stopStore_frame stW10 0 (by decide) (by decide) (by decide)
  exact ⟨h.2.1, h.2.2.2.2.2.2.2.2.1, by rw [h.2.2.2.2.2.1]⟩

/-! ### `ReplManager::maxDumpFileSeq` (repl_manager.cpp lines 280-342)

Scan `<dumpPath>/<storeId>/` recursively; for every regular file, parse the
substring between the second and the third dash of its name as a file
sequence number and return the maximum (0 when there is none). A directory
entry is a name plus whether it is a regular file; directory creation and
filesystem exceptions are outside the scan itself. -/

structure DirEntry where
  name : String
  isRegularFile : Bool
  deriving DecidableEq

/-- The index scan of the source: walk the characters, count dashes; `start`
becomes the index right after the second dash, `stop` the index of the third
dash (both stay 0 when never reached, exactly as the C++ locals). -/
def dashFieldBounds : List Char → Nat → Nat → Nat → Nat → Nat × Nat
  | [], _, _, start, stop => (start, stop)
  | c :: cs, i, first, start, stop =>
    if c = '-' then
      let first2 := first + 1
      let start2 := if first2 = 2 then i + 1 else start
      if first2 = 3 then (start2, i)
      else dashFieldBounds cs (i + 1) first2 start2 stop
    else dashFieldBounds cs (i + 1) first start stop

/-- `relative.substr(start, stop - start)` on `size_t`: when `stop < start`
the length wraps around and the suffix from `start` is returned. -/
def cppSubstr (s : List Char) (start stop : Nat) : List Char :=
  if stop < start then s.drop start
  else (s.drop start).take (stop - start)

/-- Modelled from the spec: `::tendisplus::stoul` (utils/string.h, not under
src/) — "the max parsed integer in the third dash-separated field" — parses
the field as a decimal unsigned integer and fails on an empty or non-numeric
field. -/
def stoulModel (s : List Char) : Option Nat :=
  if s ≠ [] ∧ s.all (fun c => c.isDigit) then
    some (s.foldl (fun acc c => acc * 10 + (c.toNat - 48)) 0)
  else none

/-- The integer the source parses out of one file name. -/
def parseFileSeq (name : String) : Option Nat :=
  let cs := name.toList
  let b := dashFieldBounds cs 0 0 0 0
  stoulModel (cppSubstr cs b.1 b.2)

/-- One step of the scan loop: skip non-regular files; a parse failure or a
value at/above `uint32_t` max fails the whole scan (`none`; on a parse
failure the source actually calls `.value()` on an errored `Expected`, which
aborts). -/
def maxDumpStep (acc : Option Nat) (e : DirEntry) : Option Nat :=
  match acc with
  | none => none
  | some m =>
    if e.isRegularFile = false then some m
    else
      match parseFileSeq e.name with
      | none => none
      | some fno =>
        if UINT32_MAX ≤ fno then none
        else some (max m fno)

def maxDumpFileSeq (entries : List DirEntry) : Option Nat :=
  entries.foldl maxDumpStep (some 0)

/-- The file sequence numbers the scan parses from the regular files of a
directory listing. -/
def parsedFileSeqs (entries : List DirEntry) : List Nat :=
  entries.filterMap
    (fun e => if e.isRegularFile then parseFileSeq e.name else none)

theorem maxDumpStep_none (l : List DirEntry) :
    l.foldl maxDumpStep none = none := by
  induction l with
  | nil => rfl
  | cons e l ih => simpa [maxDumpStep] using ih

theorem maxDumpFileSeq_spec :
    ∀ (entries : List DirEntry) (m0 m : Nat),
      entries.foldl maxDumpStep (some m0) = some m →
      m0 ≤ m ∧ (∀ v ∈ parsedFileSeqs entries, v ≤ m)
        ∧ (parsedFileSeqs entries = [] → m = m0) := by
  intro entries
  induction entries with
  | nil =>
    intro m0 m h
    simp only [List.foldl_nil, Option.some.injEq] at h
    subst h
    exact ⟨le_refl _, by simp [parsedFileSeqs], fun _ => rfl⟩
  | cons e l ih =>
    intro m0 m h
    simp only [List.foldl_cons] at h
    by_cases hreg : e.isRegularFile
    · cases hp : parseFileSeq e.name with
      | none =>
        rw [show maxDumpStep (some m0) e = none by
          simp [maxDumpStep, hreg, hp]] at h
        rw [maxDumpStep_none] at h
        exact absurd h (by simp)
      | some fno =>
        by_cases hbig : UINT32_MAX ≤ fno
        · rw [show maxDumpStep (some m0) e = none by
            simp [maxDumpStep, hreg, hp, hbig]] at h
          rw [maxDumpStep_none] at h
          exact absurd h (by simp)
        · rw [show maxDumpStep (some m0) e = some (max m0 fno) by
            simp [maxDumpStep, hreg, hp, hbig]] at h
          obtain ⟨hle, hall, hnil⟩ := ih (max m0 fno) m h
          have hps : parsedFileSeqs (e :: l) = fno :: parsedFileSeqs l := by
            simp [parsedFileSeqs, List.filterMap_cons, hreg, hp]
          refine ⟨le_trans (le_max_left _ _) hle, ?_, ?_⟩
          · intro v hv
            rw [hps] at hv
            rcases List.mem_cons.1 hv with hv | hv
            · exact hv ▸ le_trans (le_max_right _ _) hle
            · exact hall v hv
          · intro hemp
            rw [hps] at hemp
            exact absurd hemp (by simp)
    · have hreg2 : e.isRegularFile = false := by
        cases hb : e.isRegularFile
        · rfl
        · exact absurd hb hreg
      rw [show maxDumpStep (some m0) e = some m0 by
        simp [maxDumpStep, hreg2]] at h
      obtain ⟨hle, hall, hnil⟩ := ih m0 m h
      have hps : parsedFileSeqs (e :: l) = parsedFileSeqs l := by
        simp [parsedFileSeqs, List.filterMap_cons, hreg2]
      refine ⟨hle, ?_, ?_⟩
      · intro v hv
        rw [hps] at hv
        exact hall v hv
      · intro hemp
        rw [hps] at hemp
        exact hnil hemp

/-! ### `ReplManager::startup` (repl_manager.cpp lines 61-265)

Load (or default and persist) one `StoreMeta` per store, check `id == i`,
then per store: seed `_syncStatus`, empty push maps, set the store mode and
overwrite a slave's cached `binlogId` with the store's highest binlog id,
scan the dump directory for the starting `fileSeq`, and seed
`_logRecycStatus` from the smallest binlog actually present. Worker-pool
startup is outside the state; any per-store external failure fails the whole
call (`none`). -/

/-- The external per-store inputs of `startup`; the `Ok`/`Fail` booleans are
the fallible collaborator calls, collapsed into the gate of the per-store
seeding. -/
structure StoreEnv where
  isOpen : Bool
  getDbOk : Bool
  setStoreModeOk : Bool
  createTxnOk : Bool
  minBinlogFail : Bool
  minBinlog : Option (Nat × Nat)
  highestBinlogId : Nat
  dumpDir : List DirEntry
  initMode : StoreMode
  deriving DecidableEq

def dfltEnv : StoreEnv :=
  { isOpen := false, getDbOk := true, setStoreModeOk := true,
    createTxnOk := true, minBinlogFail := false, minBinlog := none,
    highestBinlogId := 0, dumpDir := [], initMode := StoreMode.STORE_NONE }

def dfltRMState : ReplManagerState :=
  { syncMeta := [], syncStatus := [], pushStatus := [], fullPushStatus := [],
    logRecycStatus := [], connectMasterTimeoutMs := 1000, storeModes := [],
    catalog := [] }

/-- The meta loaded for store `i`: the catalog entry when present, else the
synthesized default `StoreMeta(i, "", 0, -1, TXNID_UNINITED, REPL_NONE)`. -/
def startupStoreMeta (cat : Option StoreMeta) (i : Nat) : StoreMeta :=
  match cat with
  | some m => m
  | none =>
    { id := i, syncFromHost := "", syncFromPort := 0, syncFromId := UINT32_MAX,
      binlogId := TXNID_UNINITED, replState := ReplState.REPL_NONE }

/-- For an open slave store the cached `binlogId` is overwritten with
`store->getHighestBinlogId()`. -/
def startupMeta2 (env : StoreEnv) (m : StoreMeta) : StoreMeta :=
  if env.isOpen = true ∧ m.syncFromHost ≠ "" then
    { m with binlogId := env.highestBinlogId }
  else m

/-- Store mode set at startup for an open store (invariant 6 of the spec);
a closed store keeps whatever mode it had. -/
def startupMode (env : StoreEnv) (m : StoreMeta) : StoreMode :=
  if env.isOpen = true then
    if m.syncFromHost = "" then StoreMode.READ_WRITE
    else StoreMode.REPLICATE_ONLY
  else env.initMode

def startupSync (env : StoreEnv) (now : Nat) : SPovStatus :=
  let tp := if env.isOpen = true then now else instantMax
  { isRunning := false, sessionId := UINT64_MAX, nextSchedTime := tp,
    lastSyncTime := tp }

/-- Seed `_logRecycStatus[i]`: for an open store, from the dump-dir scan and
the minimum binlog of the store (`firstBinlogId = MIN_VALID_TXNID` on
EXHAUST, i.e. an empty binlog); for a closed store the initializer values
with `nextSchedTime = time_point::max()` and `fileSeq = uint32_t` max. -/
def startupRecycle (env : StoreEnv) (now : Nat) : Option RecycleBinlogStatus :=
  if env.getDbOk = false then none
  else if env.isOpen = true then
    if env.setStoreModeOk = false then none
    else
      match maxDumpFileSeq env.dumpDir with
      | none => none
      | some fs =>
        if env.createTxnOk = false then none
        else if env.minBinlogFail = true then none
        else
          match env.minBinlog with
          | some bt =>
            some { isRunning := false, nextSchedTime := now,
                   firstBinlogId := bt.1, lastFlushBinlogId := TXNID_UNINITED,
                   fileSeq := fs, timestamp := bt.2 }
          | none =>
            some { isRunning := false, nextSchedTime := now,
                   firstBinlogId := MIN_VALID_TXNID,
                   lastFlushBinlogId := TXNID_UNINITED,
                   fileSeq := fs, timestamp := 0 }
  else
    some { isRunning := false, nextSchedTime := instantMax,
           firstBinlogId := TXNID_UNINITED, lastFlushBinlogId := TXNID_UNINITED,
           fileSeq := UINT32_MAX, timestamp := 0 }

def startup (now : Nat) (envs : List StoreEnv) (cat : List (Option StoreMeta)) :
    Option ReplManagerState :=
  let N := envs.length
  let metas0 := (List.range N).map (fun i => startupStoreMeta (cat.getD i none) i)
  if (List.range N).all (fun i => (metas0.getD i dfltMeta).id == i) = true then
    match optList ((List.range N).map
        (fun i => startupRecycle (envs.getD i dfltEnv) now)) with
    | none => none
    | some recs =>
      some { syncMeta := (List.range N).map
               (fun i => startupMeta2 (envs.getD i dfltEnv) (metas0.getD i dfltMeta)),
             syncStatus := (List.range N).map
               (fun i => startupSync (envs.getD i dfltEnv) now),
             pushStatus := (List.range N).map (fun _ => []),
             fullPushStatus := (List.range N).map (fun _ => []),
             logRecycStatus := recs,
             connectMasterTimeoutMs := 1000,
             storeModes := (List.range N).map
               (fun i => startupMode (envs.getD i dfltEnv) (metas0.getD i dfltMeta)),
             catalog := (List.range N).map
               (fun i => some (startupStoreMeta (cat.getD i none) i)) }
  else none

theorem startupRecycle_open (env : StoreEnv) (now : Nat)
    (r : RecycleBinlogStatus) (ho : env.isOpen = true)
    (h : startupRecycle env now = some r) :
    ∃ fs, maxDumpFileSeq env.dumpDir = some fs ∧ r.fileSeq = fs := by
  unfold startupRecycle at h
  split at h
  · exact absurd h (by simp)
  · split at h
    · exact absurd h (by simp)
    · split at h
      · exact absurd h (by simp)
      · rename_i fs hfs
        split at h
        · exact absurd h (by simp)
        · split at h
          · exact absurd h (by simp)
          · refine ⟨fs, hfs, ?_⟩
            split at h
            · rw [← Option.some.inj h]
            · rw [← Option.some.inj h]

/-- C6 amended: after the startup scan of an open store, the seeded
`recycleStatus[i].fileSeq` is greater than or equal to every integer parsed
from the third dash-separated field of an existing regular file of
`<dumpPath>/<i>/` (it is their maximum), and is 0 when no such file exists;
it is not in general strictly greater, because it equals the maximum parsed
value itself. -/
theorem c6_startup_fileSeq_ge (now : Nat) (envs : List StoreEnv)
    (cat : List (Option StoreMeta)) (st : ReplManagerState) (i : Nat)
    (h : startup now envs cat = some st) (hi : i < envs.length)
    (ho : (envs.getD i dfltEnv).isOpen = true) :
    (∀ v ∈ parsedFileSeqs (envs.getD i dfltEnv).dumpDir,
        v ≤ (st.logRecycStatus.getD i dfltRecycle).fileSeq)
    ∧ (parsedFileSeqs (envs.getD i dfltEnv).dumpDir = [] →
        (st.logRecycStatus.getD i dfltRecycle).fileSeq = 0) := by
  simp only [startup] at h
  split at h
  · split at h
    · exact absurd h (by simp)
    · rename_i recs hrec
      have hst := Option.some.inj h
      have hlog : st.logRecycStatus = recs := by rw [← hst]
      have hlen : ((List.range envs.length).map
          (fun j => startupRecycle (envs.getD j dfltEnv) now)).length
            = envs.length := by simp
      have hget := optList_getD _ recs i dfltRecycle hrec (by rw [hlen]; exact hi)
      rw [getD_range_map] at hget
      rw [if_pos hi] at hget
      rw [hlog]
      obtain ⟨fs, hfs, hfield⟩ :=
        startupRecycle_open (envs.getD i dfltEnv) now (recs.getD i dfltRecycle)
          ho hget
      have hspec := maxDumpFileSeq_spec _ 0 fs hfs
      rw [hfield]
      exact ⟨hspec.2.1, fun he => by rw [hspec.2.2 he]⟩
  · exact absurd h (by simp)

/-- A one-store startup environment whose dump directory holds one archive
file with sequence field 5. -/
def envC6 : StoreEnv :=
  { isOpen := true, getDbOk := true, setStoreModeOk := true,
    createTxnOk := true, minBinlogFail := false, minBinlog := some (1, 0),
    highestBinlogId := 0,
    dumpDir := [{ name := "binlog-0-5-0.log", isRegularFile := true }],
    initMode := StoreMode.STORE_NONE }

/-- Counterexample to C6 as stated: with one existing archive file whose
third dash-separated field parses to 5, the startup scan seeds
`fileSeq = 5`, which is not strictly greater than the parsed integer 5. -/
theorem c6_counterexample :
    (startup 0 [envC6] [none]).map
        (fun st => (st.logRecycStatus.getD 0 dfltRecycle).fileSeq) = some 5
    ∧ 5 ∈ parsedFileSeqs envC6.dumpDir
    ∧ ¬ (5 > 5) := by
  refine ⟨by decide, by decide, by omega⟩

/-- The state produced by `startup` on `envC6`. -/
def stStartC6 : ReplManagerState :=
  (startup 0 [envC6] [none]).getD dfltRMState

/-- Witness for the amended C6 theorem at the concrete environment
`envC6`. -/
theorem c6_startup_fileSeq_ge_witness :
    5 ≤ (stStartC6.logRecycStatus.getD 0 dfltRecycle).fileSeq :=
  (c6_startup_fileSeq_ge 0 [envC6] [none] stStartC6 0 (by decide) (by decide)
    (by decide)).1 5 (by decide)

/-! ### `ReplManager::recycleBinlog` (repl_manager.cpp lines 508-657)

One recycle run for a store. The run computes a jittered next schedule, and
a scope guard updates `_logRecycStatus[storeId]` on every exit path: clear
`isRunning`, advance `nextSchedTime`, and install `firstBinlogId :=`
`TXNID_UNINITED` on failure or the local `start` on success. Note that on
the early return where the kvstore is not running, the local `start` has
never been assigned: the C++ reads an uninitialized variable there, modelled
by the environment field `uninitStart` holding its indeterminate content. -/

/-- The value `truncateBinlogV2` hands back on success. -/
structure TruncateResult where
  newStart : Nat
  written : Nat
  timestamp : Nat
  deriving DecidableEq

/-- External collaborators of one `recycleBinlog` run. `jitterMs` is
`truncateBinlogIntervalMs * randRatio` with the random factor in
[0.80, 1.20]; `truncateBinlogV2` is the storage call, given the start and
end bounds. -/
structure RecycleEnv where
  now : Nat
  jitterMs : Nat
  getDbOk : Bool
  storeRunning : Bool
  createTxnOk : Bool
  getCurBinlogFsOk : Bool
  truncateBinlogV2 : Nat → Nat → Option TruncateResult
  commitOk : Bool
  uninitStart : Nat

/-- The arguments `recycleBinlog` passes to `kvstore->truncateBinlogV2`:
the bounds, and whether an archive sink (`fs != nullptr`) was passed. -/
structure TruncTrace where
  tstart : Nat
  tstop : Nat
  sinkPresent : Bool
  deriving DecidableEq

/-- The scope guard of `recycleBinlog` (repl_manager.cpp lines 519-539). -/
def applyRecycleGuard (st : ReplManagerState) (storeId : Nat)
    (nextSched : Nat) (hasError : Bool) (start : Nat) : ReplManagerState :=
  { st with
    logRecycStatus := updateNth st.logRecycStatus storeId
      (fun v =>
        { v with
          isRunning := false,
          nextSchedTime :=
            if v.nextSchedTime < nextSched then nextSched else v.nextSchedTime,
          firstBinlogId := if hasError then TXNID_UNINITED else start }) }

/-- The archive decision (repl_manager.cpp lines 562-565): a slave archives;
a master with an empty `_pushStatus[storeId]` archives too. -/
def computeSaveLogs (host : String) (pushCount : Nat) : Bool :=
  let saveLogs := !(host == "")
  if host == "" && pushCount == 0 then true else saveLogs

/-- `end = min(...)` accumulation of the source loops. -/
def listMin (l : List Nat) (a : Nat) : Nat := l.foldl min a

/-- The truncation upper bound (repl_manager.cpp lines 567-573): fold `min`
over the `binlogPos` of every full-push entry, then of every
incremental-push entry, starting from `uint64_t` max. -/
def computeRecycleEnd (fullPush : List (String × MPovFullPushStatus))
    (push : List (Nat × MPovStatus)) : Nat :=
  listMin (push.map (fun p => p.2.binlogPos))
    (listMin (fullPush.map (fun p => p.2.binlogPos)) UINT64_MAX)

/-- All subscriber acknowledge positions of a store: full-push entries then
incremental-push entries. -/
def subscriberPositions (st : ReplManagerState) (storeId : Nat) : List Nat :=
  (st.fullPushStatus.getD storeId []).map (fun p => p.2.binlogPos)
  ++ (st.pushStatus.getD storeId []).map (fun p => p.2.binlogPos)

/-- Modelled from the spec: the record set `truncateBinlogV2(start, end,
txn, sink)` deletes (storage engine, not under src/). Spec section 4.4 and
invariant 5: the store truncates only records in `[start, end)` — a record
is removed by the call iff its binlog id lies in that half-open interval. -/
def truncateRemoves (tstart tstop r : Nat) : Prop := tstart ≤ r ∧ r < tstop

instance (a b r : Nat) : Decidable (truncateRemoves a b r) := by
  unfold truncateRemoves; infer_instance

/-- The local `start` of `recycleBinlog` once it has been assigned under
the central mutex: `_logRecycStatus[storeId]->firstBinlogId`. -/
def recycleStart (st : ReplManagerState) (storeId : Nat) : Nat :=
  (st.logRecycStatus.getD storeId dfltRecycle).firstBinlogId

/-- The local `end` of `recycleBinlog`. -/
def recycleStop (st : ReplManagerState) (storeId : Nat) : Nat :=
  computeRecycleEnd (st.fullPushStatus.getD storeId [])
    (st.pushStatus.getD storeId [])

/-- The local `saveLogs` of `recycleBinlog`. -/
def recycleSave (st : ReplManagerState) (storeId : Nat) : Bool :=
  computeSaveLogs (st.syncMeta.getD storeId dfltMeta).syncFromHost
    (st.pushStatus.getD storeId []).length

/-- The arguments handed to `truncateBinlogV2` when the run reaches it. -/
def recycleArgs (st : ReplManagerState) (storeId : Nat) : TruncTrace :=
  { tstart := recycleStart st storeId, tstop := recycleStop st storeId,
    sinkPresent := recycleSave st storeId }

def recycleBinlog (env : RecycleEnv) (st : ReplManagerState) (storeId : Nat) :
    ReplManagerState × Option TruncTrace :=
  if env.getDbOk = false then
    (applyRecycleGuard st storeId (env.now + env.jitterMs) true env.uninitStart,
     none)
  else if env.storeRunning = false then
    (applyRecycleGuard st storeId (env.now + 1000) false env.uninitStart, none)
  else if env.createTxnOk = false then
    (applyRecycleGuard st storeId (env.now + env.jitterMs) true
      (recycleStart st storeId), none)
  else if recycleSave st storeId && !env.getCurBinlogFsOk then
    (applyRecycleGuard st storeId (env.now + env.jitterMs) true
      (recycleStart st storeId), none)
  else
    match env.truncateBinlogV2 (recycleStart st storeId) (recycleStop st storeId) with
    | none =>
      (applyRecycleGuard st storeId (env.now + env.jitterMs) true
        (recycleStart st storeId), some (recycleArgs st storeId))
    | some res =>
      if env.commitOk = false then
        (applyRecycleGuard st storeId (env.now + env.jitterMs) true
          (recycleStart st storeId), some (recycleArgs st storeId))
      else
        (applyRecycleGuard st storeId (env.now + env.jitterMs) false
          res.newStart, some (recycleArgs st storeId))

theorem listMin_le_init (l : List Nat) (a : Nat) : listMin l a ≤ a := by
  induction l generalizing a with
  | nil => exact le_refl a
  | cons x l ih =>
    exact le_trans (ih (min a x)) (min_le_left a x)

theorem listMin_le_mem :
    ∀ (l : List Nat) (a x : Nat), x ∈ l → listMin l a ≤ x := by
  intro l
  induction l with
  | nil => intro a x hx; simp at hx
  | cons y l ih =>
    intro a x hx
    rcases List.mem_cons.1 hx with h | h
    · subst h
      exact le_trans (listMin_le_init l (min a x)) (min_le_right a x)
    · exact ih (min a y) x h

theorem listMin_mem_or_init :
    ∀ (l : List Nat) (a : Nat), listMin l a ∈ l ∨ listMin l a = a := by
  intro l
  induction l with
  | nil => intro a; exact Or.inr rfl
  | cons x l ih =>
    intro a
    have hstep : listMin (x :: l) a = listMin l (min a x) := rfl
    rcases ih (min a x) with h | h
    · refine Or.inl ?_
      rw [hstep]
      exact List.mem_cons_of_mem _ h
    · rcases min_cases a x with ⟨hm, _⟩ | ⟨hm, _⟩
      · exact Or.inr (by rw [hstep, h, hm])
      · refine Or.inl ?_
        rw [hstep, h, hm]
        exact List.mem_cons_self x l

/-- If any recycle run produces a truncation call, that call is over
`[firstBinlogId, computeRecycleEnd ...)`. -/
theorem recycleBinlog_trace (env : RecycleEnv) (st : ReplManagerState)
    (storeId : Nat) (tr : TruncTrace)
    (h : (recycleBinlog env st storeId).2 = some tr) :
    tr = { tstart := (st.logRecycStatus.getD storeId dfltRecycle).firstBinlogId,
           tstop := computeRecycleEnd (st.fullPushStatus.getD storeId [])
             (st.pushStatus.getD storeId []),
           sinkPresent := computeSaveLogs
             (st.syncMeta.getD storeId dfltMeta).syncFromHost
             (st.pushStatus.getD storeId []).length } := by
  unfold recycleBinlog at h
  split_ifs at h <;>
    first
      | exact absurd h (by simp)
      | exact (Option.some.inj h).symm
      | (split at h <;> exact (Option.some.inj h).symm)

/-- C1: every recycle run that reaches truncation uses
`start = recycleStatus[i].firstBinlogId` and
`end = min over all full-push and incr-push entries of binlogPos`
(`u64::MAX` when both maps are empty), and truncation is over `[start,
end)`; hence when the subscriber maps are non-empty, no record with binlog
id at or above the minimum acknowledged position is removed. -/
theorem c1_recycle_end_safe (env : RecycleEnv) (st : ReplManagerState)
    (storeId : Nat) (tr : TruncTrace)
    (h : (recycleBinlog env st storeId).2 = some tr) :
    tr.tstart = (st.logRecycStatus.getD storeId dfltRecycle).firstBinlogId
    ∧ tr.tstop = computeRecycleEnd (st.fullPushStatus.getD storeId [])
        (st.pushStatus.getD storeId [])
    ∧ (st.fullPushStatus.getD storeId [] = [] ∧ st.pushStatus.getD storeId [] = []
        → tr.tstop = UINT64_MAX)
    ∧ (∀ x ∈ subscriberPositions st storeId, tr.tstop ≤ x)
    ∧ (tr.tstop ∈ subscriberPositions st storeId ∨ tr.tstop = UINT64_MAX)
    ∧ (∀ r x, x ∈ subscriberPositions st storeId → x ≤ r →
        ¬ truncateRemoves tr.tstart tr.tstop r) := by
  have htr := recycleBinlog_trace env st storeId tr h
  subst htr
  refine ⟨rfl, rfl, ?_, ?_, ?_, ?_⟩
  · rintro ⟨hf, hp⟩
    simp only [computeRecycleEnd, hf, hp, List.map_nil]
    rfl
  · intro x hx
    rcases List.mem_append.1 hx with hx | hx
    · exact le_trans
        (listMin_le_init _ _)
        (listMin_le_mem _ _ _ hx)
    · exact listMin_le_mem _ _ _ hx
  · rcases listMin_mem_or_init
        ((st.pushStatus.getD storeId []).map (fun p => p.2.binlogPos))
        (listMin ((st.fullPushStatus.getD storeId []).map (fun p => p.2.binlogPos))
          UINT64_MAX) with hm | hm
    · exact Or.inl (List.mem_append.2 (Or.inr hm))
    · rcases listMin_mem_or_init
          ((st.fullPushStatus.getD storeId []).map (fun p => p.2.binlogPos))
          UINT64_MAX with hm2 | hm2
      · refine Or.inl (List.mem_append.2 (Or.inl ?_))
        show computeRecycleEnd _ _ ∈ _
        rw [computeRecycleEnd, hm]
        exact hm2
      · refine Or.inr ?_
        show computeRecycleEnd _ _ = UINT64_MAX
        rw [computeRecycleEnd, hm, hm2]
  · intro r x hx hxr hrem
    have hstop : computeRecycleEnd (st.fullPushStatus.getD storeId [])
        (st.pushStatus.getD storeId []) ≤ x := by
      rcases List.mem_append.1 hx with hx | hx
      · exact le_trans (listMin_le_init _ _) (listMin_le_mem _ _ _ hx)
      · exact listMin_le_mem _ _ _ hx
    exact absurd hrem.2 (not_lt.2 (le_trans hstop hxr))

/-- A concrete state for the recycle theorems: a master store with one
incremental subscriber acknowledged at 140 and `firstBinlogId = 100`. -/
def stW1 : ReplManagerState :=
  { syncMeta := [{ id := 0, syncFromHost := "", syncFromPort := 0, syncFromId := 0,
                   binlogId := 3, replState := ReplState.REPL_NONE }],
    syncStatus := [{ isRunning := false, sessionId := 0, nextSchedTime := 0,
                     lastSyncTime := 0 }],
    pushStatus := [[(7, { isRunning := false, dstStoreId := 0, binlogPos := 140,
                          nextSchedTime := 0, clientId := 7 })]],
    fullPushStatus := [[]],
    logRecycStatus := [{ isRunning := true, nextSchedTime := 0, firstBinlogId := 100,
                         lastFlushBinlogId := 0, fileSeq := 0, timestamp := 0 }],
    connectMasterTimeoutMs := 1000,
    storeModes := [StoreMode.READ_WRITE],
    catalog := [none] }

/-- A fully successful recycle environment whose truncation reports the new
lower bound equal to the requested upper bound. -/
def envW1 : RecycleEnv :=
  { now := 0, jitterMs := 50, getDbOk := true, storeRunning := true,
    createTxnOk := true, getCurBinlogFsOk := true,
    truncateBinlogV2 := fun _ b => some { newStart := b, written := 0, timestamp := 0 },
    commitOk := true, uninitStart := 0 }

/-- Witness for C1: on `stW1` the run truncates `[100, 140)` and record 140
(the subscriber acknowledge position) survives. -/
theorem c1_recycle_end_safe_witness :
    ¬ truncateRemoves
      ((recycleBinlog envW1 stW1 0).2.getD
        { tstart := 0, tstop := 0, sinkPresent := false }).tstart
      ((recycleBinlog envW1 stW1 0).2.getD
        { tstart := 0, tstop := 0, sinkPresent := false }).tstop 140 :=
  (c1_recycle_end_safe envW1 stW1 0 _ rfl).2.2.2.2.2 140 140 (by decide)
    (le_refl 140)

/-- C3: in every recycle run that reaches truncation, the archive flag is
`saveLogs = (syncFromHost != "") or (syncFromHost == "" and pushStatus[i]
empty)` — a slave always archives, a master with no incremental subscriber
archives, a master with a subscriber does not — and the sink passed to
`truncateBinlogV2` is present exactly when `saveLogs` is true. -/
theorem c3_saveLogs (env : RecycleEnv) (st : ReplManagerState)
    (storeId : Nat) (tr : TruncTrace)
    (h : (recycleBinlog env st storeId).2 = some tr) :
    tr.sinkPresent = computeSaveLogs
      (st.syncMeta.getD storeId dfltMeta).syncFromHost
      (st.pushStatus.getD storeId []).length
    ∧ (tr.sinkPresent = true ↔
        ((st.syncMeta.getD storeId dfltMeta).syncFromHost ≠ ""
         ∨ ((st.syncMeta.getD storeId dfltMeta).syncFromHost = ""
            ∧ st.pushStatus.getD storeId [] = []))) := by
  have htr := recycleBinlog_trace env st storeId tr h
  subst htr
  refine ⟨rfl, ?_⟩
  show computeSaveLogs _ _ = true ↔ _
  unfold computeSaveLogs
  by_cases hh : (st.syncMeta.getD storeId dfltMeta).syncFromHost = ""
  · by_cases hp : st.pushStatus.getD storeId [] = []
    · simp [hh, hp]
      tauto
    · have hlen : (st.pushStatus.getD storeId []).length ≠ 0 := by
        intro hc
        exact hp (List.length_eq_zero.1 hc)
      simp [hh, hp, hlen]
      tauto
  · simp [hh]
    tauto

/-- Witness for C3 at the concrete run of `envW1` on `stW1` (a master with
one subscriber: no archive sink). -/
theorem c3_saveLogs_witness :
    ((recycleBinlog envW1 stW1 0).2.getD
      { tstart := 0, tstop := 0, sinkPresent := true }).sinkPresent
      = computeSaveLogs
          (stW1.syncMeta.getD 0 dfltMeta).syncFromHost
          (stW1.pushStatus.getD 0 []).length :=
  (c3_saveLogs envW1 stW1 0 _ rfl).1

/-! ### C2: the scope guard and the uninitialized `start`

`recycleBinlog` declares `uint64_t start;` without an initializer. The
early return for a non-running kvstore (repl_manager.cpp lines 553-557)
leaves `hasError == false`, so the guard executes
`v->firstBinlogId = start` with `start` never assigned — undefined
behaviour in C++, modelled by installing the indeterminate
`env.uninitStart`. A "successful" run of this shape can therefore install
an arbitrary value, breaking the monotonicity the spec states. -/

/-- A one-store state whose recycle cursor is at 100 ... here 5, with the
recycle slot marked running, as the controller leaves it before a run. -/
def stC2 : ReplManagerState :=
  { syncMeta := [{ id := 0, syncFromHost := "", syncFromPort := 0, syncFromId := 0,
                   binlogId := 3, replState := ReplState.REPL_NONE }],
    syncStatus := [{ isRunning := false, sessionId := 0, nextSchedTime := 0,
                     lastSyncTime := 0 }],
    pushStatus := [[]],
    fullPushStatus := [[]],
    logRecycStatus := [{ isRunning := true, nextSchedTime := 0, firstBinlogId := 5,
                         lastFlushBinlogId := 0, fileSeq := 0, timestamp := 0 }],
    connectMasterTimeoutMs := 1000,
    storeModes := [StoreMode.READ_WRITE],
    catalog := [none] }

/-- A recycle run that hits the `kvstore is not running` early return; `g`
is the indeterminate content of the uninitialized local `start`. -/
def envC2 (g : Nat) : RecycleEnv :=
  { now := 0, jitterMs := 50, getDbOk := true, storeRunning := false,
    createTxnOk := true, getCurBinlogFsOk := true,
    truncateBinlogV2 := fun _ _ => none, commitOk := true, uninitStart := g }

/-- C2 (code bug): on the store-not-running early return — a successful run
per the spec — the guard installs the value of the uninitialized local
`start` into `firstBinlogId`: with prior `firstBinlogId = 5` the run can
install 0 (decreasing it) or 99, depending only on the garbage content, and
it does not install `TXNID_UNINITED` either; monotonicity across successful
runs and reset-only-on-failure both fail on this path. -/
theorem c2_uninit_start_bug :
    ((recycleBinlog (envC2 0) stC2 0).1.logRecycStatus.getD 0 dfltRecycle).firstBinlogId = 0
    ∧ ((recycleBinlog (envC2 99) stC2 0).1.logRecycStatus.getD 0 dfltRecycle).firstBinlogId = 99
    ∧ (stC2.logRecycStatus.getD 0 dfltRecycle).firstBinlogId = 5
    ∧ ((recycleBinlog (envC2 0) stC2 0).1.logRecycStatus.getD 0 dfltRecycle).firstBinlogId
        < (stC2.logRecycStatus.getD 0 dfltRecycle).firstBinlogId
    ∧ (recycleBinlog (envC2 0) stC2 0).2 = none
    ∧ ((recycleBinlog (envC2 0) stC2 0).1.logRecycStatus.getD 0 dfltRecycle).isRunning = false := by
  refine ⟨rfl, rfl, rfl, ?_, rfl, rfl⟩
  show 0 < 5
  omega

/-! ### `ReplManager::recycleFullPushStatus` (repl_manager.cpp lines 482-499)

The controller's master pass first garbage-collects `_fullPushStatus`:
every entry in state `SUCESS` whose `endTime` is more than 600 seconds in
the past is erased. The source performs `_fullPushStatus[i].erase(...)` on
the entry the active range-for iterator points to and then advances that
iterator — invalidated by the erase, which is undefined behaviour on a
`std::map`; the definitions below give the intended filter semantics. -/

/-- The erase condition of the source, verbatim:
`state == SUCESS && now > endTime + seconds(600)` (600 s = 600000 ms
ticks). -/
def fullPushTimedOut (now : Nat) (e : MPovFullPushStatus) : Bool :=
  decide (e.state = FullPushState.SUCESS) && decide (e.endTime + 600000 < now)

/-- The garbage collection the source intends: keep exactly the entries the
erase condition does not select. -/
def recycleFullPushStatusIntended (now : Nat)
    (m : List (String × MPovFullPushStatus)) :
    List (String × MPovFullPushStatus) :=
  m.filter (fun p => !(fullPushTimedOut now p.2))

/-- The whole-state intended GC, over every store. -/
def recycleFullPushStatusAll (now : Nat) (st : ReplManagerState) :
    ReplManagerState :=
  { st with fullPushStatus :=
      st.fullPushStatus.map (fun m => recycleFullPushStatusIntended now m) }

/-- C8: under the intended filter semantics, an entry is removed iff it is a
`SUCESS` entry whose `endTime` lies more than 600 s in the past; `RUNNING`
and `FAILED` entries and young `SUCESS` entries survive. Evaluated at a
concrete map: at `now = 600001` ms an expired `SUCESS` entry (endTime 0)
satisfies the erase condition of the source and is dropped, while a
`RUNNING` entry and a `SUCESS` entry aged exactly 600 s survive. (The
range-for erase of the source is undefined behaviour as soon as the
condition fires once; see the results entry.) -/
theorem c8_fullPush_gc :
    (∀ (now : Nat) (m : List (String × MPovFullPushStatus)) (p : String × MPovFullPushStatus),
      p ∈ m →
      (p ∈ recycleFullPushStatusIntended now m ↔
        ¬ (p.2.state = FullPushState.SUCESS ∧ p.2.endTime + 600000 < now)))
    ∧ fullPushTimedOut 600001
        { state := FullPushState.SUCESS, binlogPos := 10, startTime := 0, endTime := 0 } = true
    ∧ recycleFullPushStatusIntended 600001
        [("a", { state := FullPushState.SUCESS, binlogPos := 10, startTime := 0, endTime := 0 }),
         ("b", { state := FullPushState.RUNNING, binlogPos := 11, startTime := 0, endTime := 0 }),
         ("c", { state := FullPushState.SUCESS, binlogPos := 12, startTime := 0, endTime := 1 })]
      = [("b", { state := FullPushState.RUNNING, binlogPos := 11, startTime := 0, endTime := 0 }),
         ("c", { state := FullPushState.SUCESS, binlogPos := 12, startTime := 0, endTime := 1 })] := by
  refine ⟨?_, by decide, by decide⟩
  intro now m p hp
  unfold recycleFullPushStatusIntended
  rw [List.mem_filter]
  constructor
  · rintro ⟨_, hkeep⟩ hbad
    have : fullPushTimedOut now p.2 = true := by
      unfold fullPushTimedOut
      simp [hbad.1, hbad.2]
    simp [this] at hkeep
  · intro hno
    refine ⟨hp, ?_⟩
    have : fullPushTimedOut now p.2 = false := by
      unfold fullPushTimedOut
      by_cases hs : p.2.state = FullPushState.SUCESS
      · by_cases ht : p.2.endTime + 600000 < now
        · exact absurd ⟨hs, ht⟩ hno
        · simp [ht]
      · simp [hs]
    simp [this]

/-! ### `ReplManager::changeReplSource` (repl_manager.cpp lines 665-773)

The outer call takes `LOCK_X`, succeeds trivially on a closed store, and
rejects attaching to a non-empty store; `changeReplSourceInLock` does the
work. The condition-variable wait is modelled sequentially: within this
atomic step no worker can clear `slavePov[storeId].isRunning`, so a set
flag at entry means the `oldTimeout + 2000 ms` wait times out, and a clear
flag means the wait returns immediately. `INVARIANT(...)` failures and a
catalog write failure (`LOG(FATAL)`) abort: result `none`. -/

/-- External collaborators of one `changeReplSource` call. -/
structure CRSEnv where
  getDbXOk : Bool
  storeOpen : Bool
  storeEmpty : Bool
  getDbOk : Bool
  setStoreModeOk : Bool
  cancelSessionOk : Bool
  deriving DecidableEq

/-- `ReplManager::changeReplStateInLock`: persist through
`catalog.setStoreMeta` (failure is `LOG(FATAL)`, excluded here by modelling
the write as succeeding), then install in the `_syncMeta` cache at index
`storeMeta.id`. -/
def changeReplStateInLock (st : ReplManagerState) (meta : StoreMeta)
    (persist : Bool) : ReplManagerState :=
  { st with
    catalog := if persist then updateNth st.catalog meta.id (fun _ => some meta)
               else st.catalog,
    syncMeta := updateNth st.syncMeta meta.id (fun _ => meta) }

def changeReplSourceInLock (env : CRSEnv) (st : ReplManagerState)
    (storeId : Nat) (ip : String) (port srcId : Nat) :
    Option (ErrorCode × ReplManagerState) :=
  -- oldTimeout is read and _connectMasterTimeoutMs updated before the wait
  let st1 := { st with connectMasterTimeoutMs := if ip ≠ "" then 1000 else 1 }
  if (st.syncStatus.getD storeId dfltSPov).isRunning = true then
    some (ErrorCode.ERR_TIMEOUT, st1)
  else if st.syncMeta.length ≤ storeId then
    some (ErrorCode.ERR_INTERNAL, st1)
  else if env.getDbOk = false then
    some (ErrorCode.ERR_OTHER, st1)
  else
    let meta := st.syncMeta.getD storeId dfltMeta
    if ip ≠ "" then
      if meta.syncFromHost ≠ "" then
        some (ErrorCode.ERR_BUSY, st1)
      else
        let st2 := { st1 with connectMasterTimeoutMs := 1000 }
        if env.setStoreModeOk = false then some (ErrorCode.ERR_OTHER, st2)
        else
          let st3 := { st2 with
            storeModes := updateNth st2.storeModes storeId
              (fun _ => StoreMode.REPLICATE_ONLY) }
          let newMeta := { meta with
            syncFromHost := ip, syncFromPort := port, syncFromId := srcId,
            replState := ReplState.REPL_CONNECT, binlogId := TXNID_UNINITED }
          some (ErrorCode.ERR_OK, changeReplStateInLock st3 newMeta true)
    else
      if meta.syncFromHost = "" then
        some (ErrorCode.ERR_OK, st1)
      else
        -- cancel the owning session (best effort) and clear the session id
        let st2 := { st1 with
          connectMasterTimeoutMs := 1,
          syncStatus := updateNth st1.syncStatus storeId
            (fun s => { s with sessionId := UINT64_MAX }) }
        if env.setStoreModeOk = false then some (ErrorCode.ERR_OTHER, st2)
        else
          let st3 := { st2 with
            storeModes := updateNth st2.storeModes storeId
              (fun _ => StoreMode.READ_WRITE) }
          if port = 0 ∧ srcId = 0 then
            let newMeta := { meta with
              syncFromHost := ip, syncFromPort := port, syncFromId := srcId,
              replState := ReplState.REPL_NONE, binlogId := TXNID_UNINITED }
            some (ErrorCode.ERR_OK, changeReplStateInLock st3 newMeta true)
          else none  -- INVARIANT(port == 0 && sourceStoreId == 0) aborts

def changeReplSource (env : CRSEnv) (st : ReplManagerState) (storeId : Nat)
    (ip : String) (port srcId : Nat) : Option (ErrorCode × ReplManagerState) :=
  if env.getDbXOk = false then some (ErrorCode.ERR_OTHER, st)
  else if env.storeOpen = false then some (ErrorCode.ERR_OK, st)
  else if ip ≠ "" ∧ env.storeEmpty = false then
    some (ErrorCode.ERR_MANUAL, st)
  else changeReplSourceInLock env st storeId ip port srcId

/-- C4 amended: when the wait for `slavePov[storeId].isRunning` to clear
times out, `changeReplSourceInLock` returns `TIMEOUT` and leaves every
manager field unchanged EXCEPT `_connectMasterTimeoutMs`, which was already
set (to 1000 when attaching, 1 when detaching) before the wait and keeps
that value. -/
theorem c4_timeout_partial_frame (env : CRSEnv) (st : ReplManagerState)
    (storeId : Nat) (ip : String) (port srcId : Nat)
    (h : (st.syncStatus.getD storeId dfltSPov).isRunning = true) :
    changeReplSourceInLock env st storeId ip port srcId
      = some (ErrorCode.ERR_TIMEOUT,
          { st with connectMasterTimeoutMs := if ip ≠ "" then 1000 else 1 }) := by
  unfold changeReplSourceInLock
  rw [if_pos h]

/-- Witness for the amended C4 theorem: a concrete timed-out detach. -/
theorem c4_timeout_partial_frame_witness :
    changeReplSourceInLock
      { getDbXOk := true, storeOpen := true, storeEmpty := true,
        getDbOk := true, setStoreModeOk := true, cancelSessionOk := true }
      stW10 0 "" 0 0
      = some (ErrorCode.ERR_TIMEOUT,
          { stW10 with connectMasterTimeoutMs := 1 }) := by
  have h := c4_timeout_partial_frame
    { getDbXOk := true, storeOpen := true, storeEmpty := true,
      getDbOk := true, setStoreModeOk := true, cancelSessionOk := true }
    stW10 0 "" 0 0 (by decide)
  simpa using h

/-- Counterexample to C4 as stated: a timed-out detach call on a store whose
previous connect timeout was 1000 ms returns `TIMEOUT` but has already
changed manager state: `_connectMasterTimeoutMs` is 1 afterwards. -/
theorem c4_counterexample :
    (changeReplSourceInLock
      { getDbXOk := true, storeOpen := true, storeEmpty := true,
        getDbOk := true, setStoreModeOk := true, cancelSessionOk := true }
      stW10 0 "" 0 0).map Prod.fst = some ErrorCode.ERR_TIMEOUT
    ∧ (changeReplSourceInLock
      { getDbXOk := true, storeOpen := true, storeEmpty := true,
        getDbOk := true, setStoreModeOk := true, cancelSessionOk := true }
      stW10 0 "" 0 0).map
        (fun r => r.2.connectMasterTimeoutMs) = some 1
    ∧ stW10.connectMasterTimeoutMs = 1000 ∧ (1 : Nat) ≠ 1000 := by
  refine ⟨by decide, by decide, by decide, by decide⟩

/-- C5 amended: `changeReplSource(i, "", 0, 0)` on an open, detached store
with an idle slave slot returns `OK` and leaves everything unchanged EXCEPT
`_connectMasterTimeoutMs`, which is set to 1 before the wait. -/
theorem c5_detach_idempotent (env : CRSEnv) (st : ReplManagerState)
    (storeId : Nat)
    (hX : env.getDbXOk = true) (hOpen : env.storeOpen = true)
    (hlen : storeId < st.syncMeta.length)
    (hrun : (st.syncStatus.getD storeId dfltSPov).isRunning = false)
    (hdb : env.getDbOk = true)
    (hdet : (st.syncMeta.getD storeId dfltMeta).syncFromHost = "") :
    changeReplSource env st storeId "" 0 0
      = some (ErrorCode.ERR_OK, { st with connectMasterTimeoutMs := 1 }) := by
  unfold changeReplSource changeReplSourceInLock
  rw [if_neg (by rw [hX]; simp)]
  rw [if_neg (by rw [hOpen]; simp)]
  rw [if_neg (by simp)]
  rw [if_neg (by rw [hrun]; simp)]
  rw [if_neg (by omega)]
  rw [if_neg (by rw [hdb]; simp)]
  rw [if_neg (by simp)]
  rw [if_pos hdet]
  rw [if_neg (by simp)]

/-- A two-store state: store 0 detached and idle, store 1 attached; the
connect-master timeout is at its attached value 1000. -/
def stW5 : ReplManagerState :=
  { syncMeta :=
      [{ id := 0, syncFromHost := "", syncFromPort := 0, syncFromId := 0,
         binlogId := 3, replState := ReplState.REPL_NONE },
       { id := 1, syncFromHost := "m", syncFromPort := 7, syncFromId := 1,
         binlogId := 9, replState := ReplState.REPL_CONNECTED }],
    syncStatus :=
      [{ isRunning := false, sessionId := 0, nextSchedTime := 0, lastSyncTime := 0 },
       { isRunning := false, sessionId := 4, nextSchedTime := 0, lastSyncTime := 0 }],
    pushStatus := [[], []],
    fullPushStatus := [[], []],
    logRecycStatus :=
      [{ isRunning := false, nextSchedTime := 0, firstBinlogId := 1,
         lastFlushBinlogId := 0, fileSeq := 0, timestamp := 0 },
       { isRunning := false, nextSchedTime := 0, firstBinlogId := 1,
         lastFlushBinlogId := 0, fileSeq := 0, timestamp := 0 }],
    connectMasterTimeoutMs := 1000,
    storeModes := [StoreMode.READ_WRITE, StoreMode.REPLICATE_ONLY],
    catalog := [none, none] }

def envAllOk : CRSEnv :=
  { getDbXOk := true, storeOpen := true, storeEmpty := true,
    getDbOk := true, setStoreModeOk := true, cancelSessionOk := true }

/-- Witness for the amended C5 theorem at the concrete state `stW5`. -/
theorem c5_detach_idempotent_witness :
    changeReplSource envAllOk stW5 0 "" 0 0
      = some (ErrorCode.ERR_OK, { stW5 with connectMasterTimeoutMs := 1 }) :=
  c5_detach_idempotent envAllOk stW5 0 (by decide) (by decide) (by decide)
    (by decide) (by decide) (by decide)

/-- Counterexample to C5 as stated: on the open, detached store 0 of `stW5`
the call returns `OK` but is not a no-op — the connect-master timeout drops
from 1000 to 1. -/
theorem c5_counterexample :
    (changeReplSource envAllOk stW5 0 "" 0 0).map Prod.fst
      = some ErrorCode.ERR_OK
    ∧ (changeReplSource envAllOk stW5 0 "" 0 0).map
        (fun r => r.2.connectMasterTimeoutMs) = some 1
    ∧ stW5.connectMasterTimeoutMs = 1000 ∧ (1 : Nat) ≠ 1000 := by
  refine ⟨by decide, by decide, by decide, by decide⟩

/-- C9 amended: on a detach call (`ip == ""`) against a currently attached
store that passes the wait and the external calls, the run aborts through
`INVARIANT(port == 0 && sourceStoreId == 0)` exactly when `port` or
`sourceStoreId` is nonzero; hence every detach call that completes the
detach has both equal to 0. Detach calls that return early — already
detached, timed out, invalid store id, failed external call — can return
with nonzero values. -/
theorem c9_detach_invariant (env : CRSEnv) (st : ReplManagerState)
    (storeId : Nat) (port srcId : Nat)
    (hrun : (st.syncStatus.getD storeId dfltSPov).isRunning = false)
    (hlen : storeId < st.syncMeta.length)
    (hdb : env.getDbOk = true)
    (hatt : (st.syncMeta.getD storeId dfltMeta).syncFromHost ≠ "")
    (hmode : env.setStoreModeOk = true) :
    (changeReplSourceInLock env st storeId "" port srcId = none
      ↔ ¬ (port = 0 ∧ srcId = 0)) := by
  unfold changeReplSourceInLock
  rw [if_neg (by rw [hrun]; simp)]
  rw [if_neg (by omega)]
  rw [if_neg (by rw [hdb]; simp)]
  rw [if_neg (by simp)]
  rw [if_neg hatt]
  rw [if_neg (by rw [hmode]; simp)]
  by_cases hz : port = 0 ∧ srcId = 0
  · rw [if_pos hz]
    simp [hz]
  · rw [if_neg hz]
    simp [hz]

/-- Witness for the amended C9 theorem: on the attached store 1 of `stW5`,
a detach with `port = 5` aborts. -/
theorem c9_detach_invariant_witness :
    changeReplSourceInLock envAllOk stW5 1 "" 5 0 = none ↔ ¬ ((5 : Nat) = 0 ∧ (0 : Nat) = 0) :=
  c9_detach_invariant envAllOk stW5 1 5 0 (by decide) (by decide) (by decide)
    (by decide) (by decide)

/-- Counterexample to C9 as stated: a detach call with nonzero `port` and
`sourceStoreId` against the already-detached store 0 returns `OK` — it
neither aborts nor carries zero arguments, so "every detach call that
returns has port and sourceStoreId 0" is false. -/
theorem c9_counterexample :
    (changeReplSourceInLock envAllOk stW5 0 "" 7 7).map Prod.fst
      = some ErrorCode.ERR_OK
    ∧ (7 : Nat) ≠ 0 := by
  refine ⟨by decide, by decide⟩

/-- A concrete expired full-push entry. -/
def eC8 : String × MPovFullPushStatus :=
  ("a", { state := FullPushState.SUCESS, binlogPos := 10, startTime := 0,
          endTime := 0 })

/-- Witness for the quantified part of C8 at a concrete map. -/
theorem c8_fullPush_gc_witness :
    eC8 ∈ recycleFullPushStatusIntended 600001 [eC8]
      ↔ ¬ (eC8.2.state = FullPushState.SUCESS ∧ eC8.2.endTime + 600000 < 600001) :=
  c8_fullPush_gc.1 600001 [eC8] eC8 (by decide)

/-! ### The controller loop (repl_manager.cpp lines 391-480) and claim C7 -/

/-- One store of the slave scheduling pass: skip when the slot is running,
not yet due, or `REPL_NONE`; dispatch (set `isRunning`, submit to the
full-receive or incr-check pool) on `REPL_CONNECT`/`REPL_CONNECTED`;
observing `REPL_TRANSFER` is `LOG(FATAL)` (`none`). -/
def schedSlaveEntry (now : Nat) (meta : StoreMeta) (s : SPovStatus) :
    Option SPovStatus :=
  if s.isRunning = true ∨ now < s.nextSchedTime
      ∨ meta.replState = ReplState.REPL_NONE then
    some s
  else
    match meta.replState with
    | ReplState.REPL_CONNECT => some { s with isRunning := true }
    | ReplState.REPL_CONNECTED => some { s with isRunning := true }
    | ReplState.REPL_TRANSFER => none
    | ReplState.REPL_NONE => some s

def schedSlaveInLock (now : Nat) (st : ReplManagerState) :
    Option ReplManagerState :=
  match optList ((List.range st.syncStatus.length).map
      (fun i => schedSlaveEntry now (st.syncMeta.getD i dfltMeta)
        (st.syncStatus.getD i dfltSPov))) with
  | none => none
  | some l => some { st with syncStatus := l }

/-- The master scheduling pass: the `fullPushStatus` garbage collection
(with the intended filter semantics — the range-for erase of the source is
analysed under C8), then dispatch of every idle, due incremental-push
entry. -/
def schedMasterInLock (now : Nat) (st : ReplManagerState) : ReplManagerState :=
  let st1 := recycleFullPushStatusAll now st
  { st1 with
    pushStatus := st1.pushStatus.map (fun m => m.map (fun p =>
      if p.2.isRunning = true ∨ now < p.2.nextSchedTime then p
      else (p.1, { p.2 with isRunning := true }))) }

def schedRecycLogInLock (now : Nat) (st : ReplManagerState) :
    ReplManagerState :=
  { st with
    logRecycStatus := st.logRecycStatus.map (fun v =>
      if v.isRunning = true ∨ now < v.nextSchedTime then v
      else { v with isRunning := true }) }

/-- One controller tick under the central mutex: slave pass (fatal on an
observed `REPL_TRANSFER`), master pass, recycle pass. -/
def controllerPass (now : Nat) (st : ReplManagerState) :
    Option ReplManagerState :=
  match schedSlaveInLock now st with
  | none => none
  | some st1 => some (schedRecycLogInLock now (schedMasterInLock now st1))

/-- Modelled from the spec: the slave-side worker bodies (`slaveSyncRoutine`
and the full-sync/incremental protocol code) are not under src/. Per spec
sections 3 and 4.2, a worker may move its store to `REPL_TRANSFER` only
while it owns the slave slot ("worker code owns the store exclusively while
it holds", i.e. `slavePov[i].isRunning` is true), and the transient
`REPL_TRANSFER` is not a persisted state. -/
def workerSetTransfer (st : ReplManagerState) (i : Nat) : ReplManagerState :=
  { st with
    syncMeta := updateNth st.syncMeta i
      (fun m => { m with replState := ReplState.REPL_TRANSFER }) }

/-- Modelled from the spec: a slave-side worker leaves `REPL_TRANSFER`
before clearing `isRunning` on every exit path (spec section 4.2); on exit
it installs a non-TRANSFER state and its applied binlog position,
persisting through the catalog when durable state changed, and
re-schedules its slot. -/
def workerFinish (st : ReplManagerState) (i : Nat) (newState : ReplState)
    (newBinlogId : Nat) (persist : Bool) (sched : Nat) : ReplManagerState :=
  let m2 := { st.syncMeta.getD i dfltMeta with
    replState := newState, binlogId := newBinlogId }
  { st with
    syncMeta := updateNth st.syncMeta i (fun _ => m2),
    catalog := if persist then updateNth st.catalog i (fun _ => some m2)
               else st.catalog,
    syncStatus := updateNth st.syncStatus i
      (fun s => { s with isRunning := false, nextSchedTime := sched }) }

/-- The states of the closed system of the spec: a cold start (no catalog
entries) followed by any interleaving of source changes, store stops,
controller ticks, recycle runs, slave-side worker transitions
(spec-modelled) and restarts that re-run `startup` over the catalog this
same system persisted. -/
inductive Reachable : ReplManagerState → Prop
  | coldStart (now : Nat) (envs : List StoreEnv) (st : ReplManagerState) :
      startup now envs (List.replicate envs.length none) = some st →
      Reachable st
  | restart (now : Nat) (envs : List StoreEnv) (st st2 : ReplManagerState) :
      Reachable st → startup now envs st.catalog = some st2 → Reachable st2
  | sourceChange (env : CRSEnv) (st st2 : ReplManagerState) (storeId : Nat)
      (ip : String) (port srcId : Nat) (code : ErrorCode) :
      Reachable st →
      changeReplSource env st storeId ip port srcId = some (code, st2) →
      Reachable st2
  | stop (st : ReplManagerState) (storeId : Nat) :
      Reachable st → Reachable (stopStore st storeId).1
  | tick (now : Nat) (st st2 : ReplManagerState) :
      Reachable st → controllerPass now st = some st2 → Reachable st2
  | recycleRun (env : RecycleEnv) (st : ReplManagerState) (storeId : Nat) :
      Reachable st → Reachable (recycleBinlog env st storeId).1
  | workerTransfer (st : ReplManagerState) (i : Nat) :
      Reachable st → (st.syncStatus.getD i dfltSPov).isRunning = true →
      Reachable (workerSetTransfer st i)
  | workerExit (st : ReplManagerState) (i : Nat) (newState : ReplState)
      (newBinlogId : Nat) (persist : Bool) (sched : Nat) :
      Reachable st → (st.syncStatus.getD i dfltSPov).isRunning = true →
      newState ≠ ReplState.REPL_TRANSFER →
      Reachable (workerFinish st i newState newBinlogId persist sched)

/-- The inductive invariant behind C7: a store whose slave slot is idle is
never in `REPL_TRANSFER`, and the catalog never holds `REPL_TRANSFER`. -/
def NoTransferInv (st : ReplManagerState) : Prop :=
  (∀ i, (st.syncStatus.getD i dfltSPov).isRunning = false →
      (st.syncMeta.getD i dfltMeta).replState ≠ ReplState.REPL_TRANSFER)
  ∧ (∀ i m, st.catalog.getD i none = some m →
      m.replState ≠ ReplState.REPL_TRANSFER)

theorem inv_of_parts (st st2 : ReplManagerState)
    (hMeta : st2.syncMeta = st.syncMeta)
    (hCat : st2.catalog = st.catalog)
    (hSync : ∀ i, (st2.syncStatus.getD i dfltSPov).isRunning
        = (st.syncStatus.getD i dfltSPov).isRunning)
    (h : NoTransferInv st) : NoTransferInv st2 := by
  constructor
  · intro i hr
    rw [hMeta]
    refine h.1 i ?_
    rw [← hSync i]
    exact hr
  · intro i m hm
    rw [hCat] at hm
    exact h.2 i m hm

theorem updateNth_isRunning_preserved (l : List SPovStatus) (k : Nat)
    (f : SPovStatus → SPovStatus)
    (hf : ∀ s, (f s).isRunning = s.isRunning) (i : Nat) :
    ((updateNth l k f).getD i dfltSPov).isRunning
      = (l.getD i dfltSPov).isRunning := by
  by_cases hik : i = k
  · subst hik
    by_cases hlen : i < l.length
    · rw [updateNth_getD_eq _ _ _ _ hlen, hf]
    · rw [updateNth_oob _ _ _ (by omega)]
  · rw [updateNth_getD_ne _ _ _ _ _ hik]

theorem replicate_none_getD {α : Type} (n i : Nat) :
    (List.replicate n (none : Option α)).getD i none = none := by
  induction n generalizing i with
  | zero => rfl
  | succ k ih =>
    cases i with
    | zero => rfl
    | succ j =>
      simp only [List.replicate, List.getD_cons_succ]
      exact ih j

theorem startupMeta2_replState (env : StoreEnv) (m : StoreMeta) :
    (startupMeta2 env m).replState = m.replState := by
  unfold startupMeta2
  split <;> rfl

theorem startup_inv (now : Nat) (envs : List StoreEnv)
    (cat : List (Option StoreMeta)) (st : ReplManagerState)
    (hcat : ∀ i m, cat.getD i none = some m →
      m.replState ≠ ReplState.REPL_TRANSFER)
    (h : startup now envs cat = some st) : NoTransferInv st := by
  have hmeta : ∀ i, (startupStoreMeta (cat.getD i none) i).replState
      ≠ ReplState.REPL_TRANSFER := by
    intro i
    cases hc : cat.getD i none with
    | some m =>
      have := hcat i m hc
      simpa [startupStoreMeta] using this
    | none =>
      simp [startupStoreMeta]
  simp only [startup] at h
  split at h
  · split at h
    · exact absurd h (by simp)
    · rename_i recs hrec
      have hst := Option.some.inj h
      constructor
      · intro i hrun
        rw [← hst]
        show (((List.range envs.length).map _).getD i dfltMeta).replState ≠ _
        rw [getD_range_map]
        by_cases hi : i < envs.length
        · rw [if_pos hi, startupMeta2_replState, getD_range_map, if_pos hi]
          exact hmeta i
        · rw [if_neg hi]
          simp [dfltMeta]
      · intro i m hm
        rw [← hst] at hm
        show m.replState ≠ _
        simp only at hm
        rw [getD_range_map] at hm
        by_cases hi : i < envs.length
        · rw [if_pos hi] at hm
          have := Option.some.inj hm
          rw [← this]
          exact hmeta i
        · rw [if_neg hi] at hm
          exact absurd hm (by simp)
  · exact absurd h (by simp)

theorem changeReplStateInLock_inv (st : ReplManagerState) (meta : StoreMeta)
    (persist : Bool) (hinv : NoTransferInv st)
    (hns : meta.replState ≠ ReplState.REPL_TRANSFER) :
    NoTransferInv (changeReplStateInLock st meta persist) := by
  constructor
  · intro i hr
    show ((updateNth st.syncMeta meta.id (fun _ => meta)).getD i dfltMeta).replState ≠ _
    have hr2 : (st.syncStatus.getD i dfltSPov).isRunning = false := hr
    by_cases hij : i = meta.id
    · subst hij
      by_cases hlen : meta.id < st.syncMeta.length
      · rw [updateNth_getD_eq _ _ _ _ hlen]
        exact hns
      · rw [updateNth_oob _ _ _ (by omega)]
        exact hinv.1 meta.id hr2
    · rw [updateNth_getD_ne _ _ _ _ _ hij]
      exact hinv.1 i hr2
  · intro i m hm
    show m.replState ≠ _
    have hm2 : (if persist then updateNth st.catalog meta.id (fun _ => some meta)
        else st.catalog).getD i none = some m := hm
    cases persist with
    | false =>
      rw [if_neg (by simp)] at hm2
      exact hinv.2 i m hm2
    | true =>
      rw [if_pos rfl] at hm2
      by_cases hij : i = meta.id
      · subst hij
        by_cases hlen : meta.id < st.catalog.length
        · rw [updateNth_getD_eq _ _ _ _ hlen] at hm2
          rw [← Option.some.inj hm2]
          exact hns
        · rw [updateNth_oob _ _ _ (by omega)] at hm2
          exact hinv.2 meta.id m hm2
      · rw [updateNth_getD_ne _ _ _ _ _ hij] at hm2
        exact hinv.2 i m hm2

theorem stopStore_inv (st : ReplManagerState) (storeId : Nat)
    (hinv : NoTransferInv st) : NoTransferInv (stopStore st storeId).1 := by
  refine inv_of_parts st _ rfl rfl ?_ hinv
  intro i
  exact updateNth_isRunning_preserved st.syncStatus storeId
    (fun s => { s with nextSchedTime := instantMax }) (fun s => rfl) i

theorem recycleBinlog_frame (env : RecycleEnv) (st : ReplManagerState)
    (storeId : Nat) :
    (recycleBinlog env st storeId).1.syncMeta = st.syncMeta
    ∧ (recycleBinlog env st storeId).1.syncStatus = st.syncStatus
    ∧ (recycleBinlog env st storeId).1.catalog = st.catalog := by
  unfold recycleBinlog
  split_ifs <;>
    first
      | exact ⟨rfl, rfl, rfl⟩
      | (split <;> exact ⟨rfl, rfl, rfl⟩)

theorem recycleBinlog_inv (env : RecycleEnv) (st : ReplManagerState)
    (storeId : Nat) (hinv : NoTransferInv st) :
    NoTransferInv (recycleBinlog env st storeId).1 := by
  have hf := recycleBinlog_frame env st storeId
  refine inv_of_parts st _ hf.1 hf.2.2 ?_ hinv
  intro i
  rw [hf.2.1]

theorem changeReplSourceInLock_inv (env : CRSEnv) (st : ReplManagerState)
    (storeId : Nat) (ip : String) (port srcId : Nat) (code : ErrorCode)
    (st2 : ReplManagerState)
    (h : changeReplSourceInLock env st storeId ip port srcId = some (code, st2))
    (hinv : NoTransferInv st) : NoTransferInv st2 := by
  have htimeout : ∀ t : Nat,
      NoTransferInv { st with connectMasterTimeoutMs := t } := by
    intro t
    exact inv_of_parts st _ rfl rfl (fun i => rfl) hinv
  simp only [changeReplSourceInLock] at h
  by_cases h1 : (st.syncStatus.getD storeId dfltSPov).isRunning = true
  · rw [if_pos h1] at h
    rw [Option.some.injEq, Prod.mk.injEq] at h; rw [← h.2]
    exact htimeout _
  · rw [if_neg h1] at h
    by_cases h2 : st.syncMeta.length ≤ storeId
    · rw [if_pos h2] at h
      rw [Option.some.injEq, Prod.mk.injEq] at h; rw [← h.2]
      exact htimeout _
    · rw [if_neg h2] at h
      by_cases h3 : env.getDbOk = false
      · rw [if_pos h3] at h
        rw [Option.some.injEq, Prod.mk.injEq] at h; rw [← h.2]
        exact htimeout _
      · rw [if_neg h3] at h
        by_cases h4 : ip ≠ ""
        · rw [if_pos h4] at h
          by_cases h5 : (st.syncMeta.getD storeId dfltMeta).syncFromHost ≠ ""
          · rw [if_pos h5] at h
            rw [Option.some.injEq, Prod.mk.injEq] at h; rw [← h.2]
            exact htimeout _
          · rw [if_neg h5] at h
            by_cases h6 : env.setStoreModeOk = false
            · rw [if_pos h6] at h
              rw [Option.some.injEq, Prod.mk.injEq] at h; rw [← h.2]
              exact inv_of_parts st _ rfl rfl (fun i => rfl) hinv
            · rw [if_neg h6] at h
              rw [Option.some.injEq, Prod.mk.injEq] at h; rw [← h.2]
              refine changeReplStateInLock_inv _ _ _ ?_ ?_
              · exact inv_of_parts st _ rfl rfl (fun i => rfl) hinv
              · intro hc
                exact absurd hc (by simp)
        · rw [if_neg h4] at h
          by_cases h7 : (st.syncMeta.getD storeId dfltMeta).syncFromHost = ""
          · rw [if_pos h7] at h
            rw [Option.some.injEq, Prod.mk.injEq] at h; rw [← h.2]
            exact htimeout _
          · rw [if_neg h7] at h
            by_cases h8 : env.setStoreModeOk = false
            · rw [if_pos h8] at h
              rw [Option.some.injEq, Prod.mk.injEq] at h; rw [← h.2]
              refine inv_of_parts st _ rfl rfl ?_ hinv
              intro i
              exact updateNth_isRunning_preserved st.syncStatus storeId
                (fun s => { s with sessionId := UINT64_MAX }) (fun s => rfl) i
            · rw [if_neg h8] at h
              by_cases h9 : port = 0 ∧ srcId = 0
              · rw [if_pos h9] at h
                rw [Option.some.injEq, Prod.mk.injEq] at h; rw [← h.2]
                refine changeReplStateInLock_inv _ _ _ ?_ ?_
                · refine inv_of_parts st _ rfl rfl ?_ hinv
                  intro i
                  exact updateNth_isRunning_preserved st.syncStatus storeId
                    (fun s => { s with sessionId := UINT64_MAX }) (fun s => rfl) i
                · intro hc
                  exact absurd hc (by simp)
              · rw [if_neg h9] at h
                exact absurd h (by simp)

theorem changeReplSource_inv (env : CRSEnv) (st : ReplManagerState)
    (storeId : Nat) (ip : String) (port srcId : Nat) (code : ErrorCode)
    (st2 : ReplManagerState)
    (h : changeReplSource env st storeId ip port srcId = some (code, st2))
    (hinv : NoTransferInv st) : NoTransferInv st2 := by
  unfold changeReplSource at h
  split_ifs at h with h1 h2 h3
  · rw [Option.some.injEq, Prod.mk.injEq] at h; rw [← h.2]
    exact hinv
  · rw [Option.some.injEq, Prod.mk.injEq] at h; rw [← h.2]
    exact hinv
  · rw [Option.some.injEq, Prod.mk.injEq] at h; rw [← h.2]
    exact hinv
  · exact changeReplSourceInLock_inv env st storeId ip port srcId code st2 h hinv

theorem workerSetTransfer_inv (st : ReplManagerState) (i : Nat)
    (hrun : (st.syncStatus.getD i dfltSPov).isRunning = true)
    (hinv : NoTransferInv st) : NoTransferInv (workerSetTransfer st i) := by
  constructor
  · intro j hr
    have hr2 : (st.syncStatus.getD j dfltSPov).isRunning = false := hr
    show ((updateNth st.syncMeta i _).getD j dfltMeta).replState ≠ _
    by_cases hij : j = i
    · subst hij
      rw [hr2] at hrun
      exact absurd hrun (by simp)
    · rw [updateNth_getD_ne _ _ _ _ _ hij]
      exact hinv.1 j hr2
  · intro j m hm
    exact hinv.2 j m hm

theorem workerFinish_inv (st : ReplManagerState) (i : Nat)
    (newState : ReplState) (newBinlogId : Nat) (persist : Bool) (sched : Nat)
    (hns : newState ≠ ReplState.REPL_TRANSFER)
    (hinv : NoTransferInv st) :
    NoTransferInv (workerFinish st i newState newBinlogId persist sched) := by
  constructor
  · intro j hr
    show ((updateNth st.syncMeta i _).getD j dfltMeta).replState ≠ _
    by_cases hij : j = i
    · subst hij
      by_cases hlen : j < st.syncMeta.length
      · rw [updateNth_getD_eq _ _ _ _ hlen]
        exact hns
      · rw [updateNth_oob _ _ _ (by omega)]
        rw [List.getD_eq_get?, List.get?_eq_none.2 (by omega)]
        simp [dfltMeta]
    · rw [updateNth_getD_ne _ _ _ _ _ hij]
      refine hinv.1 j ?_
      have hr2 : ((updateNth st.syncStatus i
          (fun s => { s with isRunning := false, nextSchedTime := sched })).getD
            j dfltSPov).isRunning = false := hr
      rw [updateNth_getD_ne _ _ _ _ _ hij] at hr2
      exact hr2
  · intro j m hm
    show m.replState ≠ _
    have hm2 : (if persist then updateNth st.catalog i _ else st.catalog).getD
        j none = some m := hm
    cases persist with
    | false =>
      rw [if_neg (by simp)] at hm2
      exact hinv.2 j m hm2
    | true =>
      rw [if_pos rfl] at hm2
      by_cases hij : j = i
      · subst hij
        by_cases hlen : j < st.catalog.length
        · rw [updateNth_getD_eq _ _ _ _ hlen] at hm2
          rw [← Option.some.inj hm2]
          exact hns
        · rw [updateNth_oob _ _ _ (by omega)] at hm2
          exact hinv.2 j m hm2
      · rw [updateNth_getD_ne _ _ _ _ _ hij] at hm2
        exact hinv.2 j m hm2

theorem schedSlaveEntry_some_keep (now : Nat) (meta : StoreMeta)
    (s s2 : SPovStatus) (h : schedSlaveEntry now meta s = some s2)
    (h2 : s2.isRunning = false) : s2 = s := by
  unfold schedSlaveEntry at h
  split_ifs at h with hskip
  · exact (Option.some.inj h).symm
  · cases hrs : meta.replState with
    | REPL_NONE => rw [hrs] at h; exact (Option.some.inj h).symm
    | REPL_CONNECT =>
      rw [hrs] at h
      rw [← Option.some.inj h] at h2
      exact absurd h2 (by simp)
    | REPL_CONNECTED =>
      rw [hrs] at h
      rw [← Option.some.inj h] at h2
      exact absurd h2 (by simp)
    | REPL_TRANSFER =>
      rw [hrs] at h
      exact absurd h (by simp)

theorem schedSlaveEntry_none_char (now : Nat) (meta : StoreMeta)
    (s : SPovStatus) (h : schedSlaveEntry now meta s = none) :
    s.isRunning = false ∧ meta.replState = ReplState.REPL_TRANSFER := by
  unfold schedSlaveEntry at h
  split_ifs at h with hskip
  push_neg at hskip
  refine ⟨by simpa using hskip.1, ?_⟩
  cases hrs : meta.replState with
  | REPL_NONE => rw [hrs] at h; exact absurd h (by simp)
  | REPL_CONNECT => rw [hrs] at h; exact absurd h (by simp)
  | REPL_CONNECTED => rw [hrs] at h; exact absurd h (by simp)
  | REPL_TRANSFER => rfl

theorem schedSlaveInLock_inv (now : Nat) (st st1 : ReplManagerState)
    (h : schedSlaveInLock now st = some st1) (hinv : NoTransferInv st) :
    NoTransferInv st1 := by
  unfold schedSlaveInLock at h
  cases hrec : optList ((List.range st.syncStatus.length).map
      (fun i => schedSlaveEntry now (st.syncMeta.getD i dfltMeta)
        (st.syncStatus.getD i dfltSPov))) with
  | none => rw [hrec] at h; exact absurd h (by simp)
  | some l =>
    rw [hrec] at h
    have hst := Option.some.inj h
    constructor
    · intro i hr
      rw [← hst] at hr
      rw [← hst]
      show (st.syncMeta.getD i dfltMeta).replState ≠ _
      have hr2 : (l.getD i dfltSPov).isRunning = false := hr
      by_cases hi : i < st.syncStatus.length
      · have hgd := optList_getD _ l i dfltSPov hrec (by simpa using hi)
        rw [getD_range_map, if_pos hi] at hgd
        have heq := schedSlaveEntry_some_keep now _ _ _ hgd hr2
        refine hinv.1 i ?_
        rw [← heq]
        exact hr2
      · refine hinv.1 i ?_
        rw [List.getD_eq_get?, List.get?_eq_none.2 (by omega)]
        rfl
    · intro i m hm
      rw [← hst] at hm
      exact hinv.2 i m hm

theorem schedMasterInLock_frame (now : Nat) (st : ReplManagerState) :
    (schedMasterInLock now st).syncMeta = st.syncMeta
    ∧ (schedMasterInLock now st).syncStatus = st.syncStatus
    ∧ (schedMasterInLock now st).catalog = st.catalog :=
  ⟨rfl, rfl, rfl⟩

theorem schedRecycLogInLock_frame (now : Nat) (st : ReplManagerState) :
    (schedRecycLogInLock now st).syncMeta = st.syncMeta
    ∧ (schedRecycLogInLock now st).syncStatus = st.syncStatus
    ∧ (schedRecycLogInLock now st).catalog = st.catalog :=
  ⟨rfl, rfl, rfl⟩

theorem controllerPass_inv (now : Nat) (st st2 : ReplManagerState)
    (h : controllerPass now st = some st2) (hinv : NoTransferInv st) :
    NoTransferInv st2 := by
  unfold controllerPass at h
  cases hs : schedSlaveInLock now st with
  | none => rw [hs] at h; exact absurd h (by simp)
  | some st1 =>
    rw [hs] at h
    have hinv1 := schedSlaveInLock_inv now st st1 hs hinv
    have hinv2 : NoTransferInv (schedMasterInLock now st1) := by
      refine inv_of_parts st1 _ (schedMasterInLock_frame now st1).1
        (schedMasterInLock_frame now st1).2.2 ?_ hinv1
      intro i
      rw [(schedMasterInLock_frame now st1).2.1]
    have hinv3 : NoTransferInv (schedRecycLogInLock now (schedMasterInLock now st1)) := by
      refine inv_of_parts _ _ (schedRecycLogInLock_frame now _).1
        (schedRecycLogInLock_frame now _).2.2 ?_ hinv2
      intro i
      rw [(schedRecycLogInLock_frame now _).2.1]
    rw [← Option.some.inj h]
    exact hinv3

/-- Every reachable state of the closed system satisfies the invariant. -/
theorem reachable_inv (st : ReplManagerState) (h : Reachable st) :
    NoTransferInv st := by
  induction h with
  | coldStart now envs st h =>
    refine startup_inv now envs _ st ?_ h
    intro i m hm
    rw [replicate_none_getD] at hm
    exact absurd hm (by simp)
  | restart now envs st st2 hre hst ih =>
    exact startup_inv now envs st.catalog st2 ih.2 hst
  | sourceChange env st st2 storeId ip port srcId code hre hcall ih =>
    exact changeReplSource_inv env st storeId ip port srcId code st2 hcall ih
  | stop st storeId hre ih =>
    exact stopStore_inv st storeId ih
  | tick now st st2 hre hpass ih =>
    exact controllerPass_inv now st st2 hpass ih
  | recycleRun env st storeId hre ih =>
    exact recycleBinlog_inv env st storeId ih
  | workerTransfer st i hre hrun ih =>
    exact workerSetTransfer_inv st i hrun ih
  | workerExit st i newState newBinlogId persist sched hre hrun hns ih =>
    exact workerFinish_inv st i newState newBinlogId persist sched hns ih

/-- C7: in every state reachable through startup, `changeReplSource`,
`stopStore`, controller passes, recycle runs, restarts and the
(spec-modelled) slave-worker transitions, a store whose slave slot is idle
is never in `REPL_TRANSFER`, so a controller pass never reaches the fatal
`REPL_TRANSFER` branch of the slave scheduling path (it never returns the
abort value `none`). -/
theorem c7_no_transfer_observed (st : ReplManagerState) (now i : Nat)
    (h : Reachable st) :
    controllerPass now st ≠ none
    ∧ ((st.syncStatus.getD i dfltSPov).isRunning = false →
        (st.syncMeta.getD i dfltMeta).replState ≠ ReplState.REPL_TRANSFER) := by
  have hinv := reachable_inv st h
  refine ⟨?_, hinv.1 i⟩
  intro hnone
  unfold controllerPass at hnone
  cases hs : schedSlaveInLock now st with
  | some st1 => rw [hs] at hnone; exact absurd hnone (by simp)
  | none =>
    unfold schedSlaveInLock at hs
    cases hrec : optList ((List.range st.syncStatus.length).map
        (fun j => schedSlaveEntry now (st.syncMeta.getD j dfltMeta)
          (st.syncStatus.getD j dfltSPov))) with
    | some l => rw [hrec] at hs; exact absurd hs (by simp)
    | none =>
      have hmem := optList_eq_none _ hrec
      obtain ⟨j, hj, hjn⟩ := List.mem_map.1 hmem
      obtain ⟨hrun, htr⟩ := schedSlaveEntry_none_char now _ _ hjn
      exact hinv.1 j hrun htr

/-- The state of a cold one-store startup with a closed store. -/
def stStartC7 : ReplManagerState :=
  (startup 0 [dfltEnv] [none]).getD dfltRMState

/-- Witness for C7: a concrete reachable state on which a controller pass
does not abort. -/
theorem c7_no_transfer_observed_witness :
    controllerPass 5 stStartC7 ≠ none :=
  (c7_no_transfer_observed stStartC7 5 0
    (Reachable.coldStart 0 [dfltEnv] stStartC7 (by decide))).1

end Tendisplus
